import Mathlib

/-!
Verification of the chaos-oracle agent core against its specification.

This file gives a shallow embedding, in Lean 4, of the parts of the
repository that the specification's claims are about:

* the evidence package builder (`src/agents/worker/evidence.py`),
* the verifier's auditor and the worker's researcher
  (`src/agents/verifier/auditor.py`, `src/agents/worker/researcher.py`),
* the on-chain read layer (`src/agents/shared/registry_reader.py`),
* the identity-registration logic of the two submission backends
  (`src/agents/shared/sdk_client.py`, `src/agents/shared/direct_submitter.py`),
* the worker and verifier poll loops
  (`src/agents/worker/main.py`, `src/agents/verifier/main.py`).

Python floats are modelled as rationals, Python ints as integers,
Python dicts with string keys/values as association lists, raised
exceptions as `Except` errors, and the effectful pipeline of the two
agent loops as explicit state machines whose environment (the chain,
the model service, the archival store) is an input to each step.
-/

/-- Python `d.get(key, dflt)` on a string-keyed dict, with the dict
modelled as an association list. -/
def dictGetD (d : List (String × String)) (key dflt : String) : String :=
  match d.find? (fun kv => kv.1 == key) with
  | some kv => kv.2
  | none => dflt

/-- The evidence-package record built by the worker and consumed by the
verifier.  Each source entry is itself a string-keyed dict. -/
structure EvidencePackage where
  version : String
  question : String
  outcome : ℤ
  confidence : ℚ
  sources : List (List (String × String))
  reasoning : String
  timestamp : String
deriving DecidableEq

/-- Round-half-to-even on rationals, the tie rule of Python `round`. -/
def roundHalfEven (q : ℚ) : ℤ :=
  let f : ℤ := ⌊q⌋
  let frac : ℚ := q - (f : ℚ)
  if frac < 1/2 then f
  else if 1/2 < frac then f + 1
  else if f % 2 = 0 then f else f + 1

/-- Python `round(q, 4)`. -/
def round4 (q : ℚ) : ℚ := (roundHalfEven (q * 10000) : ℚ) / 10000

namespace EvidenceBuilder

/-- Current evidence package schema version (`EvidenceBuilder.SCHEMA_VERSION`). -/
def SCHEMA_VERSION : String := "1.0.0"

/-- Normalisation of one source dict in `EvidenceBuilder.build`: keep
exactly the keys `url`, `title`, `snippet`, defaulting each to `""`. -/
def normaliseSource (s : List (String × String)) : List (String × String) :=
  [("url", dictGetD s "url" ""),
   ("title", dictGetD s "title" ""),
   ("snippet", dictGetD s "snippet" "")]

/-- `EvidenceBuilder.build` from `src/agents/worker/evidence.py`.
A raised `ValueError` is modelled as `Except.error`; the wall-clock
timestamp is passed in as `now`. -/
def build (question : String) (outcome : ℤ) (confidence : ℚ)
    (sources : List (List (String × String))) (reasoning : String)
    (now : String) : Except String EvidencePackage :=
  if question = "" then
    .error "Evidence package requires a non-empty question."
  else if outcome < 0 then
    .error "Outcome index must be >= 0."
  else if ¬(0 ≤ confidence ∧ confidence ≤ 1) then
    .error "Confidence must be in [0, 1]."
  else
    .ok { version := SCHEMA_VERSION
          question := question
          outcome := outcome
          confidence := round4 confidence
          sources := sources.map normaliseSource
          reasoning := reasoning
          timestamp := now }

end EvidenceBuilder

/-- Python `int(q)` on a float: truncation toward zero. -/
def pyTrunc (q : ℚ) : ℤ := if 0 ≤ q then ⌊q⌋ else ⌈q⌉

namespace Auditor

/-- Python `url.split("://", 1)[1].split("/", 1)[0]` — the domain part of
a URL that contains the separator. -/
def domainOf (url : String) : String :=
  ((String.intercalate "://" (url.splitOn "://").tail).splitOn "/").headD ""

/-- Python `"://" in url`. -/
def hasProtocolSep (url : String) : Bool := (url.splitOn "://").length ≥ 2

/-- `Auditor._heuristic_audit` from `src/agents/verifier/auditor.py`:
rule-based score vector used when no LLM is available and as fallback. -/
def heuristic_audit (pkg : EvidencePackage) : List ℤ :=
  let sources := pkg.sources
  let reasoning := pkg.reasoning
  let confidence := pkg.confidence
  let accuracy := pyTrunc (confidence * 100)
  let snippetLengths := sources.map (fun s => (dictGetD s "snippet" "").length)
  let avgSnippet : ℚ := (snippetLengths.sum : ℚ) / ((max snippetLengths.length 1 : ℕ) : ℚ)
  let evidenceQuality := min 100 (pyTrunc ((sources.length : ℚ) * 15 + avgSnippet / 5))
  let domains := (sources.filterMap (fun s =>
      let url := dictGetD s "url" ""
      if hasProtocolSep url then some (domainOf url) else none)).dedup
  let sourceDiversity := min 100 ((domains.length : ℤ) * 25)
  let reasoningDepth := min 100 (pyTrunc ((reasoning.length : ℚ) / 10))
  [accuracy, evidenceQuality, sourceDiversity, reasoningDepth]

/-- `Auditor._llm_audit`: the model-backed path.  Its interaction with
the LLM service is an input: `none` stands for any call error, non-200
status, or parse failure (all caught by the same handler); `some`
carries the four integers parsed from the JSON response.  On failure it
falls back to the heuristic audit of the same package. -/
def llm_audit (response : Option (ℤ × ℤ × ℤ × ℤ)) (pkg : EvidencePackage) : List ℤ :=
  match response with
  | some (a, e, s, r) => [a, e, s, r]
  | none => heuristic_audit pkg

/-- `Auditor.audit`: choose the model-backed or heuristic path by
API-key availability, then clamp every score to [0, 100]. -/
def audit (hasApiKey : Bool) (response : Option (ℤ × ℤ × ℤ × ℤ))
    (pkg : EvidencePackage) : List ℤ :=
  let scores := if hasApiKey then llm_audit response pkg else heuristic_audit pkg
  scores.map (fun s => max 0 (min 100 s))

end Auditor

namespace Researcher

/-- Fallback analysis returned by `Researcher._call_openai` when the
call or the parse fails. -/
def openaiFallback (question : String) : ℤ × ℚ × String :=
  (0, 3/10, "LLM call failed; fallback to option 0 for " ++ question ++ ".")

/-- `Researcher._call_openai` from `src/agents/worker/researcher.py`.
The model response is an input: `none` stands for a call error, non-200
status, or parse failure; `some` carries the parsed
`(outcome_index, confidence, reasoning)` triple.  On success the
outcome index is clamped to `[0, options.length - 1]` and the
confidence to `[0, 1]`. -/
def call_openai (question : String) (options : List String)
    (response : Option (ℤ × ℚ × String)) : ℤ × ℚ × String :=
  match response with
  | some (o, c, r) => (max 0 (min o ((options.length : ℤ) - 1)), max 0 (min c 1), r)
  | none => openaiFallback question

/-- `Researcher._llm_analyze`: model-backed when an API key is present,
otherwise the deterministic placeholder that picks option 0 with
confidence 0.5. -/
def llm_analyze (hasApiKey : Bool) (question : String) (options : List String)
    (sources : List (List (String × String)))
    (response : Option (ℤ × ℚ × String)) : ℤ × ℚ × String :=
  if hasApiKey then call_openai question options response
  else (0, 1/2,
    "Placeholder analysis for: " ++ question ++
    ". No LLM API key configured; defaulting to option 0. Sources consulted: " ++
    toString sources.length ++ ".")

end Researcher

/-- The exception classes distinguished by the read layer's handlers:
the tuple `(ConnectionError, TimeoutError, OSError)` is re-raised by
`get_active_studios`, every other exception is caught there. -/
inductive PyErr
  | connectionError
  | timeoutError
  | osError
  | other
deriving DecidableEq

/-- Whether an exception matches the connectivity tuple
`(ConnectionError, TimeoutError, OSError)`. -/
def PyErr.isConnectivity : PyErr → Bool
  | .connectionError => true
  | .timeoutError => true
  | .osError => true
  | .other => false

/-- Read-only snapshot of a studio's on-chain state
(`StudioDetails` in `src/agents/shared/registry_reader.py`). -/
structure StudioDetails where
  address : String
  question : String
  options : List String
  worker_count : ℕ
  verifier_count : ℕ
  epoch_closed : Bool
deriving DecidableEq

/-- A single worker's submission record as the studio contract returns
it: `(outcome, evidence_cid, timestamp)`. -/
structure SubRecord where
  outcome : ℤ
  evidence_cid : String
  timestamp : ℕ
deriving DecidableEq

/-- One element of the list `get_unscored_submissions` returns
(`WorkerSubmission` in `src/agents/shared/registry_reader.py`). -/
structure WorkerSubmission where
  worker_address : String
  outcome : ℤ
  evidence_cid : String
  timestamp : ℕ
deriving DecidableEq

namespace RegistryReader

/-- `RegistryReader.get_active_studios`: the underlying
`getActiveStudios()` contract call is the input.  Connectivity errors
are re-raised; any other exception degrades to the empty list. -/
def get_active_studios (call : Except PyErr (List String)) :
    Except PyErr (List String) :=
  match call with
  | .ok studios => .ok studios
  | .error e => if e.isConnectivity then .error e else .ok []

/-- `RegistryReader.get_studio_details`: each contract call of the body
is an input.  The body has no exception handler, so the first failing
call propagates. -/
def get_studio_details (address : String)
    (questionCall : Except PyErr String)
    (optionCountCall : Except PyErr ℕ)
    (optionCall : ℕ → Except PyErr String)
    (workerCountCall : Except PyErr ℕ)
    (verifierCountCall : Except PyErr ℕ)
    (epochClosedCall : Except PyErr Bool) : Except PyErr StudioDetails := do
  let question ← questionCall
  let optionCount ← optionCountCall
  let options ← (List.range (min optionCount 20)).mapM optionCall
  let workerCount ← workerCountCall
  let verifierCount ← verifierCountCall
  let epochClosed ← epochClosedCall
  pure { address := address
         question := question
         options := options
         worker_count := workerCount
         verifier_count := verifierCount
         epoch_closed := epochClosed }

/-- The environment of `get_unscored_submissions`: the studio's worker
list, per-worker submission records, and the per-slot score lookups,
which may individually raise. -/
structure StudioReads where
  workerList : List String
  submissions : String → SubRecord
  verifierScores : String → String → ℕ → Except Unit ℕ

/-- Python `any(score(idx) > 0 for idx in range(4))` inside the
`try`/`except` of `get_unscored_submissions`: slots are read lazily in
order; a raised lookup makes the whole check fall into the handler,
which treats the worker as not yet scored. -/
def scoredCheckFrom (lookup : ℕ → Except Unit ℕ) : List ℕ → Bool
  | [] => false
  | i :: rest =>
    match lookup i with
    | .error _ => false
    | .ok v => if 0 < v then true else scoredCheckFrom lookup rest

/-- The already-scored check over the four score slots. -/
def scoredCheck (lookup : ℕ → Except Unit ℕ) : Bool :=
  scoredCheckFrom lookup [0, 1, 2, 3]

/-- `RegistryReader.get_unscored_submissions`: walk the worker list in
order, skip workers whose submission timestamp is zero, skip workers
already scored by this verifier, and return the rest. -/
def get_unscored_submissions (reads : StudioReads) (verifier : String) :
    List WorkerSubmission :=
  reads.workerList.filterMap (fun worker =>
    let sub := reads.submissions worker
    if sub.timestamp = 0 then none
    else if scoredCheck (reads.verifierScores verifier worker) then none
    else some { worker_address := worker
                outcome := sub.outcome
                evidence_cid := sub.evidence_cid
                timestamp := sub.timestamp })

end RegistryReader

namespace ChaosOracleSDKClient

/-- The world `auto_register` interacts with: the persisted JSON cache
file (`none` when the file is missing or undecodable), the
authoritative on-chain lookup (`0` and `None` are both falsy under the
`if on_chain_id:` check, so absence is modelled as `0`), and the token
id `register_agent` would mint. -/
structure RegEnv where
  cacheFile : Option (List (String × ℕ))
  chainId : String → ℕ
  freshId : ℕ

/-- `_load_cached_agent_id`: `None` when the cache file is missing or
corrupt, otherwise `data.get(wallet_address)`. -/
def loadCachedAgentId (env : RegEnv) (wallet : String) : Option ℕ :=
  match env.cacheFile with
  | none => none
  | some data =>
    match data.find? (fun kv => kv.1 == wallet) with
    | some kv => some kv.2
    | none => none

/-- Key update of the cache dict: `data[wallet] = agent_id`. -/
def setKey (data : List (String × ℕ)) (wallet : String) (agentId : ℕ) :
    List (String × ℕ) :=
  if data.any (fun kv => kv.1 == wallet) then
    data.map (fun kv => if kv.1 == wallet then (kv.1, agentId) else kv)
  else
    data ++ [(wallet, agentId)]

/-- `_save_cached_agent_id`: re-read the file (an unreadable file
counts as empty), set the wallet's entry, and write the file back. -/
def saveCachedAgentId (env : RegEnv) (wallet : String) (agentId : ℕ) : RegEnv :=
  { env with cacheFile := some (setKey (env.cacheFile.getD []) wallet agentId) }

/-- `ChaosOracleSDKClient.auto_register` from
`src/agents/shared/sdk_client.py`.  Returns the agent id, the new
environment, and the number of identity-registration transactions
issued: cache hit and chain hit issue none; only a double miss mints a
new identity (one transaction) and writes it back to cache and chain. -/
def auto_register (env : RegEnv) (wallet : String) : ℕ × RegEnv × ℕ :=
  match loadCachedAgentId env wallet with
  | some cachedId => (cachedId, env, 0)
  | none =>
    let onChainId := env.chainId wallet
    if onChainId ≠ 0 then
      (onChainId, saveCachedAgentId env wallet onChainId, 0)
    else
      let newId := env.freshId
      let envAfterTx :=
        { saveCachedAgentId env wallet newId with
          chainId := fun w => if w == wallet then newId else env.chainId w }
      (newId, envAfterTx, 1)

end ChaosOracleSDKClient

namespace DirectSubmitter

/-- `DirectSubmitter.auto_register`: a no-op in local mode — it always
returns agent id `0` and issues no registration transaction.  The pair
is `(returned id, number of transactions)`. -/
def auto_register : ℕ × ℕ := (0, 0)

end DirectSubmitter

namespace Worker

/-- What the environment makes of one per-studio pipeline attempt in
the worker loop (`run` in `src/agents/worker/main.py`): which step, if
any, raises, whether the studio's epoch is already closed, or full
success.  Every exception case is caught by the per-studio handler. -/
inductive WOutcome
  | detailsErr
  | closedEpoch
  | researchErr
  | buildErr
  | uploadErr
  | submitErr
  | submitOk
deriving DecidableEq

/-- An exception somewhere in the per-studio pipeline. -/
def WOutcome.isFailure : WOutcome → Bool
  | .closedEpoch => false
  | .submitOk => false
  | _ => true

/-- Observable invocations of the worker pipeline steps.  A step that
raises is still recorded as invoked; `submitWork` carries whether the
on-chain submission raised. -/
inductive WEvent
  | research (studio : String)
  | buildPkg (studio : String)
  | upload (studio : String)
  | submitWork (studio : String) (raised : Bool)
deriving DecidableEq

/-- The step invocations of one pipeline attempt for `studio`, in
program order, cut off at the step that raises. -/
def attemptEvents (studio : String) : WOutcome → List WEvent
  | .detailsErr => []
  | .closedEpoch => []
  | .researchErr => [.research studio]
  | .buildErr => [.research studio, .buildPkg studio]
  | .uploadErr => [.research studio, .buildPkg studio, .upload studio]
  | .submitErr =>
    [.research studio, .buildPkg studio, .upload studio, .submitWork studio true]
  | .submitOk =>
    [.research studio, .buildPkg studio, .upload studio, .submitWork studio false]

/-- One iteration of the worker's per-studio body: skip studios already
in `participated`; otherwise run the pipeline, adding the studio to
`participated` only when the epoch is closed (skip) or the submission
succeeded, and leaving it out on any exception. -/
def workerStep (participated : List String) (entry : String × WOutcome) :
    List String × List WEvent :=
  if entry.1 ∈ participated then (participated, [])
  else
    match entry.2 with
    | .closedEpoch => (participated.insert entry.1, attemptEvents entry.1 .closedEpoch)
    | .submitOk => (participated.insert entry.1, attemptEvents entry.1 .submitOk)
    | o => (participated, attemptEvents entry.1 o)

/-- Sequential processing of a list of per-studio attempts, threading
the `participated` set and concatenating the emitted events. -/
def workerProcess (participated : List String) :
    List (String × WOutcome) → List String × List WEvent
  | [] => (participated, [])
  | entry :: rest =>
    let p := workerStep participated entry
    let q := workerProcess p.1 rest
    (q.1, p.2 ++ q.2)

/-- A whole worker-process run: `participated` starts empty, and each
poll tick contributes the studios returned by `get_active_studios`
together with the environment's outcome for each attempted pipeline. -/
def workerRun (ticks : List (List (String × WOutcome))) :
    List String × List WEvent :=
  workerProcess [] ticks.flatten

/-- The raised-flags of the `submitWork` invocations for one studio, in
order of occurrence. -/
def wsubmits (studio : String) (events : List WEvent) : List Bool :=
  events.filterMap (fun e =>
    match e with
    | .submitWork s b => if s = studio then some b else none
    | _ => none)

end Worker

namespace Verifier

/-- What the environment makes of one (studio, worker) audit attempt in
the verifier loop (`run` in `src/agents/verifier/main.py`). -/
inductive VOutcome
  | fetchErr
  | auditErr
  | submitErr
  | submitOk
deriving DecidableEq

/-- What the environment makes of one studio in a verifier poll tick:
a failing details read, a closed epoch, zero workers, a failing
unscored-submissions read, or the list of unscored submissions with the
outcome of each audit attempt. -/
inductive StudioPhase
  | detailsErr
  | closedEpoch
  | noWorkers
  | unscoredErr
  | pending (subs : List (String × VOutcome))
deriving DecidableEq

/-- Observable `submit_scores` invocations of the verifier loop. -/
inductive VEvent
  | submitScores (studio : String) (worker : String) (raised : Bool)
deriving DecidableEq

/-- One iteration of the verifier's per-submission body: skip pairs
already in `scored`; otherwise fetch, audit and submit, adding the pair
to `scored` only after a successful score submission. -/
def verifierSubStep (studio : String) (scored : List (String × String))
    (entry : String × VOutcome) : List (String × String) × List VEvent :=
  if (studio, entry.1) ∈ scored then (scored, [])
  else
    match entry.2 with
    | .fetchErr => (scored, [])
    | .auditErr => (scored, [])
    | .submitErr => (scored, [.submitScores studio entry.1 true])
    | .submitOk =>
      (scored.insert (studio, entry.1), [.submitScores studio entry.1 false])

/-- Sequential processing of the unscored submissions of one studio. -/
def verifierSubsRun (studio : String) (scored : List (String × String)) :
    List (String × VOutcome) → List (String × String) × List VEvent
  | [] => (scored, [])
  | entry :: rest =>
    let p := verifierSubStep studio scored entry
    let q := verifierSubsRun studio p.1 rest
    (q.1, p.2 ++ q.2)

/-- One iteration of the verifier's per-studio body: every phase except
a pending submission list is skipped without touching `scored`. -/
def verifierStudioStep (scored : List (String × String))
    (entry : String × StudioPhase) : List (String × String) × List VEvent :=
  match entry.2 with
  | .pending subs => verifierSubsRun entry.1 scored subs
  | _ => (scored, [])

/-- Sequential processing of the studios of the run. -/
def verifierProcess (scored : List (String × String)) :
    List (String × StudioPhase) → List (String × String) × List VEvent
  | [] => (scored, [])
  | entry :: rest =>
    let p := verifierStudioStep scored entry
    let q := verifierProcess p.1 rest
    (q.1, p.2 ++ q.2)

/-- A whole verifier-process run: `scored` starts empty. -/
def verifierRun (ticks : List (List (String × StudioPhase))) :
    List (String × String) × List VEvent :=
  verifierProcess [] ticks.flatten

/-- The raised-flags of the `submitScores` invocations for one
(studio, worker) pair, in order of occurrence. -/
def vsubmits (pair : String × String) (events : List VEvent) : List Bool :=
  events.filterMap (fun e =>
    match e with
    | .submitScores s w b => if (s, w) = pair then some b else none)

end Verifier

/-- Sample evidence package used for concrete checks. -/
def auditSamplePkg : EvidencePackage :=
  { version := "1.0.0", question := "q", outcome := 0, confidence := 1/2,
    sources := [], reasoning := "r", timestamp := "t" }

/-- Sample evidence package used for concrete checks. -/
def heuristicSamplePkg1 : EvidencePackage :=
  { version := "1.0.0", question := "q1", outcome := 0, confidence := 1/2,
    sources := [[("url", "https://a.com/p"), ("snippet", "abc")]],
    reasoning := "r", timestamp := "t1" }

/-- A package equal to `heuristicSamplePkg1` on sources, reasoning and
confidence but different elsewhere. -/
def heuristicSamplePkg2 : EvidencePackage :=
  { version := "0.9.0", question := "q2", outcome := 3, confidence := 1/2,
    sources := [[("url", "https://a.com/p"), ("snippet", "abc")]],
    reasoning := "r", timestamp := "t2" }

/-- Sample studio reads used for concrete checks: `w1` has submitted
(timestamp 5), `w2` is registered but has not (timestamp 0); no score
slot is set. -/
def sampleReads : RegistryReader.StudioReads :=
  { workerList := ["w1", "w2"],
    submissions := fun w =>
      if w == "w1" then { outcome := 0, evidence_cid := "cid1", timestamp := 5 }
      else { outcome := 1, evidence_cid := "cid2", timestamp := 0 },
    verifierScores := fun _ _ _ => Except.ok 0 }

/-- Sample registration environment used for concrete checks: the
wallet `w` is cached with agent id 7. -/
def sampleRegEnv : ChaosOracleSDKClient.RegEnv :=
  { cacheFile := some [("w", 7)], chainId := fun _ => 0, freshId := 5 }

/-!
Generic theory of sequential gated-submission folds.

Both agent loops have the shape: a state (the progress set) is threaded
through a list of attempts; each attempt emits some events; the
submission events for a fixed key form a list of raised-flags.  The
at-most-one-successful-submission property is: in that flag list, a
`false` (successful submission) can only be the last element.
-/

/-- Every `false` in the list is its last element. -/
def FalseOnlyLast (l : List Bool) : Prop :=
  ∀ l1 l2, l = l1 ++ false :: l2 → l2 = []

lemma falseOnlyLast_nil : FalseOnlyLast [] := by
  intro l1 l2 h
  exact absurd h.symm (by simp)

lemma falseOnlyLast_single (b : Bool) : FalseOnlyLast [b] := by
  intro l1 l2 h
  cases l1 with
  | nil =>
    simp only [List.nil_append, List.cons.injEq] at h
    exact h.2.symm
  | cons a t =>
    simp only [List.cons_append, List.cons.injEq] at h
    exact absurd h.2.symm (by simp)

lemma falseOnlyLast_append {u v : List Bool} (hu : FalseOnlyLast u)
    (hv : FalseOnlyLast v) (huv : false ∈ u → v = []) :
    FalseOnlyLast (u ++ v) := by
  intro l1 l2 h
  rcases List.append_eq_append_iff.mp h with ⟨a2, ha1, ha2⟩ | ⟨c2, hc1, hc2⟩
  · exact hv a2 l2 ha2
  · cases c2 with
    | nil =>
      simp only [List.nil_append] at hc2
      exact hv [] l2 (by simpa using hc2.symm)
    | cons x xs =>
      simp only [List.cons_append, List.cons.injEq] at hc2
      have hx : x = false := hc2.1.symm
      subst hx
      have hxs : xs = [] := hu l1 xs hc1
      subst hxs
      have hfu : false ∈ u := by
        rw [hc1]; exact List.mem_append_right _ (by simp)
      have hv0 : v = [] := huv hfu
      rw [hc2.2, hv0]
      rfl

section GenericFold

variable {σ ι ε : Type}
variable (step : σ → ι → σ × List ε)
variable (process : σ → List ι → σ × List ε)
variable (submits : List ε → List Bool)
variable (Mem : σ → Prop)

/-- Core invariants of a sequential gated-submission fold: once the key
is in the progress set it is never submitted again, a `false`
(successful) submission can only be the key's last one, and a
successful submission puts the key into the progress set. -/
lemma foldNoResub
    (hnil : ∀ st, process st [] = (st, []))
    (hcons : ∀ st e rest, process st (e :: rest) =
      ((process (step st e).1 rest).1, (step st e).2 ++ (process (step st e).1 rest).2))
    (hsub_nil : submits [] = [])
    (hsub_append : ∀ l1 l2, submits (l1 ++ l2) = submits l1 ++ submits l2)
    (hstep_fol : ∀ st e, FalseOnlyLast (submits (step st e).2))
    (hstep_rec : ∀ st e, false ∈ submits (step st e).2 → Mem (step st e).1)
    (hmem_skip : ∀ st e, Mem st → submits (step st e).2 = [])
    (hmem_mono : ∀ st e, Mem st → Mem (step st e).1) :
    (∀ es st, Mem st → submits (process st es).2 = [] ∧ Mem (process st es).1) ∧
    (∀ es st, FalseOnlyLast (submits (process st es).2)) ∧
    (∀ es st, false ∈ submits (process st es).2 → Mem (process st es).1) := by
  have skipAll : ∀ es st, Mem st →
      submits (process st es).2 = [] ∧ Mem (process st es).1 := by
    intro es
    induction es with
    | nil =>
      intro st h
      rw [hnil]
      exact ⟨hsub_nil, h⟩
    | cons e rest ih =>
      intro st h
      rw [hcons]
      refine ⟨?_, (ih _ (hmem_mono st e h)).2⟩
      rw [hsub_append, hmem_skip st e h, (ih _ (hmem_mono st e h)).1]
      rfl
  refine ⟨skipAll, ?_, ?_⟩
  · intro es
    induction es with
    | nil =>
      intro st
      rw [hnil, hsub_nil]
      exact falseOnlyLast_nil
    | cons e rest ih =>
      intro st
      rw [hcons, hsub_append]
      exact falseOnlyLast_append (hstep_fol st e) (ih _)
        (fun hf => (skipAll rest _ (hstep_rec st e hf)).1)
  · intro es
    induction es with
    | nil =>
      intro st h
      rw [hnil, hsub_nil] at h
      simp at h
    | cons e rest ih =>
      intro st h
      rw [hcons] at h ⊢
      rw [hsub_append] at h
      rcases List.mem_append.mp h with hf | hf
      · exact (skipAll rest _ (hstep_rec st e hf)).2
      · exact ih _ hf

end GenericFold

namespace Worker

lemma wsubmits_nil (s : String) : wsubmits s [] = [] := rfl

lemma wsubmits_append (s : String) (l1 l2 : List WEvent) :
    wsubmits s (l1 ++ l2) = wsubmits s l1 ++ wsubmits s l2 :=
  List.filterMap_append ..

lemma wsubmits_attemptEvents_ne {s t : String} (h : t ≠ s) (o : WOutcome) :
    wsubmits s (attemptEvents t o) = [] := by
  cases o <;> simp [attemptEvents, wsubmits, h]

lemma workerStep_snd (participated : List String) (t : String) (o : WOutcome) :
    (workerStep participated (t, o)).2 =
      if t ∈ participated then [] else attemptEvents t o := by
  by_cases h : t ∈ participated
  · simp [workerStep, h]
  · cases o <;> simp [workerStep, h]

lemma workerStep_fst_mem {participated : List String} {s : String}
    (h : s ∈ participated) (e : String × WOutcome) :
    s ∈ (workerStep participated e).1 := by
  obtain ⟨t, o⟩ := e
  by_cases hmem : t ∈ participated
  · simpa [workerStep, hmem] using h
  · cases o <;> simp [workerStep, hmem, List.mem_insert_iff, h]

lemma workerStep_skip {participated : List String} {s : String}
    (h : s ∈ participated) (e : String × WOutcome) :
    wsubmits s (workerStep participated e).2 = [] := by
  obtain ⟨t, o⟩ := e
  rw [workerStep_snd]
  by_cases hmem : t ∈ participated
  · simp [hmem, wsubmits]
  · have hts : t ≠ s := fun heq => hmem (heq ▸ h)
    simp [hmem, wsubmits_attemptEvents_ne hts]

lemma workerStep_falseOnlyLast (participated : List String) (e : String × WOutcome) :
    ∀ s, FalseOnlyLast (wsubmits s (workerStep participated e).2) := by
  intro s
  obtain ⟨t, o⟩ := e
  rw [workerStep_snd]
  by_cases hmem : t ∈ participated
  · simp only [if_pos hmem]
    exact falseOnlyLast_nil
  · simp only [if_neg hmem]
    by_cases hts : t = s
    · subst hts
      cases o <;>
        first
          | exact falseOnlyLast_nil
          | (simp only [attemptEvents, wsubmits, List.filterMap_cons]
             simp
             exact falseOnlyLast_single _)
    · rw [wsubmits_attemptEvents_ne hts]
      exact falseOnlyLast_nil

lemma workerStep_record {participated : List String} {s : String}
    (e : String × WOutcome)
    (h : false ∈ wsubmits s (workerStep participated e).2) :
    s ∈ (workerStep participated e).1 := by
  obtain ⟨t, o⟩ := e
  by_cases hmem : t ∈ participated
  · rw [workerStep_snd, if_pos hmem] at h
    simp [wsubmits] at h
  · by_cases hts : t = s
    · subst hts
      cases o <;>
        simp_all [workerStep, workerStep_snd, attemptEvents, wsubmits,
          List.mem_insert_iff]
    · rw [workerStep_snd, if_neg hmem, wsubmits_attemptEvents_ne hts] at h
      simp at h

/-- Instantiation of the generic fold invariants for the worker loop. -/
lemma workerProcess_inv (s : String) :
    (∀ es participated, s ∈ participated →
        wsubmits s (workerProcess participated es).2 = [] ∧
        s ∈ (workerProcess participated es).1) ∧
    (∀ es participated,
        FalseOnlyLast (wsubmits s (workerProcess participated es).2)) ∧
    (∀ es participated,
        false ∈ wsubmits s (workerProcess participated es).2 →
        s ∈ (workerProcess participated es).1) :=
  foldNoResub workerStep workerProcess (wsubmits s) (fun st => s ∈ st)
    (fun _ => rfl) (fun _ _ _ => rfl) rfl (wsubmits_append s)
    (fun st e => workerStep_falseOnlyLast st e s)
    (fun _ e h => workerStep_record e h)
    (fun _ e h => workerStep_skip h e)
    (fun _ e h => workerStep_fst_mem h e)

lemma wsubmits_decomp (s : String) (l1 l2 l3 : List WEvent) (b1 b2 : Bool) :
    wsubmits s (l1 ++ WEvent.submitWork s b1 :: (l2 ++ WEvent.submitWork s b2 :: l3)) =
      wsubmits s l1 ++ b1 :: (wsubmits s l2 ++ b2 :: wsubmits s l3) := by
  simp [wsubmits, List.filterMap_append, List.filterMap_cons]

end Worker

namespace Verifier

lemma vsubmits_nil (p : String × String) : vsubmits p [] = [] := rfl

lemma vsubmits_append (p : String × String) (l1 l2 : List VEvent) :
    vsubmits p (l1 ++ l2) = vsubmits p l1 ++ vsubmits p l2 :=
  List.filterMap_append ..

lemma verifierSubStep_skip {scored : List (String × String)} {p : String × String}
    (h : p ∈ scored) (studio : String) (e : String × VOutcome) :
    vsubmits p (verifierSubStep studio scored e).2 = [] := by
  obtain ⟨w, o⟩ := e
  by_cases hmem : (studio, w) ∈ scored
  · simp [verifierSubStep, hmem, vsubmits]
  · have hne : (studio, w) ≠ p := fun heq => hmem (heq ▸ h)
    cases o <;> simp [verifierSubStep, hmem, vsubmits, hne]

lemma verifierSubStep_fst_mem {scored : List (String × String)} {p : String × String}
    (h : p ∈ scored) (studio : String) (e : String × VOutcome) :
    p ∈ (verifierSubStep studio scored e).1 := by
  obtain ⟨w, o⟩ := e
  by_cases hmem : (studio, w) ∈ scored
  · simpa [verifierSubStep, hmem] using h
  · cases o <;> simp [verifierSubStep, hmem, List.mem_insert_iff, h]

lemma verifierSubStep_falseOnlyLast (studio : String)
    (scored : List (String × String)) (e : String × VOutcome) (p : String × String) :
    FalseOnlyLast (vsubmits p (verifierSubStep studio scored e).2) := by
  obtain ⟨w, o⟩ := e
  by_cases hmem : (studio, w) ∈ scored
  · simp only [verifierSubStep, if_pos hmem]
    exact falseOnlyLast_nil
  · by_cases hp : (studio, w) = p
    · subst hp
      cases o <;> simp [verifierSubStep, hmem, vsubmits] <;>
        first
          | exact falseOnlyLast_nil
          | exact falseOnlyLast_single _
    · cases o <;> simp [verifierSubStep, hmem, vsubmits, hp] <;>
        exact falseOnlyLast_nil

lemma verifierSubStep_record {scored : List (String × String)} {p : String × String}
    (studio : String) (e : String × VOutcome)
    (h : false ∈ vsubmits p (verifierSubStep studio scored e).2) :
    p ∈ (verifierSubStep studio scored e).1 := by
  obtain ⟨w, o⟩ := e
  by_cases hmem : (studio, w) ∈ scored
  · simp [verifierSubStep, hmem, vsubmits] at h
  · by_cases hp : (studio, w) = p
    · cases o <;>
        simp_all [verifierSubStep, hmem, vsubmits, List.mem_insert_iff]
    · cases o <;> simp [verifierSubStep, hmem, vsubmits, hp] at h

/-- Instantiation of the generic fold invariants for the per-studio
submission loop of the verifier. -/
lemma verifierSubs_inv (studio : String) (p : String × String) :
    (∀ subs scored, p ∈ scored →
        vsubmits p (verifierSubsRun studio scored subs).2 = [] ∧
        p ∈ (verifierSubsRun studio scored subs).1) ∧
    (∀ subs scored,
        FalseOnlyLast (vsubmits p (verifierSubsRun studio scored subs).2)) ∧
    (∀ subs scored,
        false ∈ vsubmits p (verifierSubsRun studio scored subs).2 →
        p ∈ (verifierSubsRun studio scored subs).1) :=
  foldNoResub (verifierSubStep studio) (verifierSubsRun studio) (vsubmits p)
    (fun sc => p ∈ sc)
    (fun _ => rfl) (fun _ _ _ => rfl) rfl (vsubmits_append p)
    (fun st e => verifierSubStep_falseOnlyLast studio st e p)
    (fun _ e h => verifierSubStep_record studio e h)
    (fun _ e h => verifierSubStep_skip h studio e)
    (fun _ e h => verifierSubStep_fst_mem h studio e)

lemma verifierStudioStep_skip {scored : List (String × String)} {p : String × String}
    (h : p ∈ scored) (e : String × StudioPhase) :
    vsubmits p (verifierStudioStep scored e).2 = [] := by
  obtain ⟨studio, ph⟩ := e
  cases ph with
  | pending subs => exact ((verifierSubs_inv studio p).1 subs scored h).1
  | detailsErr => rfl
  | closedEpoch => rfl
  | noWorkers => rfl
  | unscoredErr => rfl

lemma verifierStudioStep_fst_mem {scored : List (String × String)} {p : String × String}
    (h : p ∈ scored) (e : String × StudioPhase) :
    p ∈ (verifierStudioStep scored e).1 := by
  obtain ⟨studio, ph⟩ := e
  cases ph with
  | pending subs => exact ((verifierSubs_inv studio p).1 subs scored h).2
  | detailsErr => exact h
  | closedEpoch => exact h
  | noWorkers => exact h
  | unscoredErr => exact h

lemma verifierStudioStep_falseOnlyLast (scored : List (String × String))
    (e : String × StudioPhase) (p : String × String) :
    FalseOnlyLast (vsubmits p (verifierStudioStep scored e).2) := by
  obtain ⟨studio, ph⟩ := e
  cases ph with
  | pending subs => exact (verifierSubs_inv studio p).2.1 subs scored
  | detailsErr => exact falseOnlyLast_nil
  | closedEpoch => exact falseOnlyLast_nil
  | noWorkers => exact falseOnlyLast_nil
  | unscoredErr => exact falseOnlyLast_nil

lemma verifierStudioStep_record {scored : List (String × String)}
    {p : String × String} (e : String × StudioPhase)
    (h : false ∈ vsubmits p (verifierStudioStep scored e).2) :
    p ∈ (verifierStudioStep scored e).1 := by
  obtain ⟨studio, ph⟩ := e
  cases ph with
  | pending subs => exact (verifierSubs_inv studio p).2.2 subs scored h
  | detailsErr => exact absurd h (by simp [verifierStudioStep, vsubmits])
  | closedEpoch => exact absurd h (by simp [verifierStudioStep, vsubmits])
  | noWorkers => exact absurd h (by simp [verifierStudioStep, vsubmits])
  | unscoredErr => exact absurd h (by simp [verifierStudioStep, vsubmits])

/-- Instantiation of the generic fold invariants for the verifier loop. -/
lemma verifierProcess_inv (p : String × String) :
    (∀ es scored, p ∈ scored →
        vsubmits p (verifierProcess scored es).2 = [] ∧
        p ∈ (verifierProcess scored es).1) ∧
    (∀ es scored,
        FalseOnlyLast (vsubmits p (verifierProcess scored es).2)) ∧
    (∀ es scored,
        false ∈ vsubmits p (verifierProcess scored es).2 →
        p ∈ (verifierProcess scored es).1) :=
  foldNoResub verifierStudioStep verifierProcess (vsubmits p) (fun sc => p ∈ sc)
    (fun _ => rfl) (fun _ _ _ => rfl) rfl (vsubmits_append p)
    (fun st e => verifierStudioStep_falseOnlyLast st e p)
    (fun _ e h => verifierStudioStep_record e h)
    (fun _ e h => verifierStudioStep_skip h e)
    (fun _ e h => verifierStudioStep_fst_mem h e)

lemma vsubmits_decomp (st w : String) (l1 l2 l3 : List VEvent) (b1 b2 : Bool) :
    vsubmits (st, w)
        (l1 ++ VEvent.submitScores st w b1 :: (l2 ++ VEvent.submitScores st w b2 :: l3)) =
      vsubmits (st, w) l1 ++ b1 :: (vsubmits (st, w) l2 ++ b2 :: vsubmits (st, w) l3) := by
  simp [vsubmits, List.filterMap_append, List.filterMap_cons]

end Verifier

/-- C1: within one worker-process run, `submit_work` is never invoked
twice for the same studio unless the earlier invocation raised; within
one verifier-process run, `submit_scores` is never invoked twice for
the same (studio, worker) pair unless the earlier invocation raised.
A successful submission puts the studio (resp. the pair) into the
`participated` (resp. `scored`) set, and membership in that set
suppresses every later submission attempt for it. -/
theorem agent_loops_no_double_submission
    (wticks : List (List (String × Worker.WOutcome)))
    (vticks : List (List (String × Verifier.StudioPhase))) :
    (∀ s l1 b1 l2 b2 l3,
      (Worker.workerRun wticks).2 =
        l1 ++ Worker.WEvent.submitWork s b1 ::
          (l2 ++ Worker.WEvent.submitWork s b2 :: l3) →
      b1 = true) ∧
    (∀ st w l1 b1 l2 b2 l3,
      (Verifier.verifierRun vticks).2 =
        l1 ++ Verifier.VEvent.submitScores st w b1 ::
          (l2 ++ Verifier.VEvent.submitScores st w b2 :: l3) →
      b1 = true) ∧
    (∀ s, false ∈ Worker.wsubmits s (Worker.workerRun wticks).2 →
      s ∈ (Worker.workerRun wticks).1) ∧
    (∀ st w, false ∈ Verifier.vsubmits (st, w) (Verifier.verifierRun vticks).2 →
      (st, w) ∈ (Verifier.verifierRun vticks).1) ∧
    (∀ participated es s, s ∈ participated →
      Worker.wsubmits s (Worker.workerProcess participated es).2 = []) ∧
    (∀ scored es st w, (st, w) ∈ scored →
      Verifier.vsubmits (st, w) (Verifier.verifierProcess scored es).2 = []) := by
  refine ⟨?_, ?_, ?_, ?_, ?_, ?_⟩
  · intro s l1 b1 l2 b2 l3 h
    cases b1 with
    | true => rfl
    | false =>
      exfalso
      have hfol : FalseOnlyLast (Worker.wsubmits s (Worker.workerRun wticks).2) :=
        (Worker.workerProcess_inv s).2.1 wticks.flatten []
      rw [h, Worker.wsubmits_decomp] at hfol
      have h0 := hfol (Worker.wsubmits s l1)
        (Worker.wsubmits s l2 ++ b2 :: Worker.wsubmits s l3) rfl
      simp at h0
  · intro st w l1 b1 l2 b2 l3 h
    cases b1 with
    | true => rfl
    | false =>
      exfalso
      have hfol : FalseOnlyLast
          (Verifier.vsubmits (st, w) (Verifier.verifierRun vticks).2) :=
        (Verifier.verifierProcess_inv (st, w)).2.1 vticks.flatten []
      rw [h, Verifier.vsubmits_decomp] at hfol
      have h0 := hfol (Verifier.vsubmits (st, w) l1)
        (Verifier.vsubmits (st, w) l2 ++ b2 :: Verifier.vsubmits (st, w) l3) rfl
      simp at h0
  · intro s h
    exact (Worker.workerProcess_inv s).2.2 wticks.flatten [] h
  · intro st w h
    exact (Verifier.verifierProcess_inv (st, w)).2.2 vticks.flatten [] h
  · intro participated es s h
    exact ((Worker.workerProcess_inv s).1 es participated h).1
  · intro scored es st w h
    exact ((Verifier.verifierProcess_inv (st, w)).1 es scored h).1

theorem agent_loops_no_double_submission_witness :
    ((Worker.workerRun
        [[("a", Worker.WOutcome.submitErr)], [("a", Worker.WOutcome.submitOk)]]).2 =
      [Worker.WEvent.research "a", Worker.WEvent.buildPkg "a", Worker.WEvent.upload "a"] ++
        Worker.WEvent.submitWork "a" true ::
          ([Worker.WEvent.research "a", Worker.WEvent.buildPkg "a", Worker.WEvent.upload "a"] ++
            Worker.WEvent.submitWork "a" false :: []) ∧
      (Verifier.verifierRun
          [[("s", Verifier.StudioPhase.pending [("w", Verifier.VOutcome.submitErr)])],
           [("s", Verifier.StudioPhase.pending [("w", Verifier.VOutcome.submitOk)])]]).2 =
        [] ++ Verifier.VEvent.submitScores "s" "w" true ::
          ([] ++ Verifier.VEvent.submitScores "s" "w" false :: [])) ∧
    (true = true ∧ true = true) := by
  have hw : (Worker.workerRun
      [[("a", Worker.WOutcome.submitErr)], [("a", Worker.WOutcome.submitOk)]]).2 =
      [Worker.WEvent.research "a", Worker.WEvent.buildPkg "a", Worker.WEvent.upload "a"] ++
        Worker.WEvent.submitWork "a" true ::
          ([Worker.WEvent.research "a", Worker.WEvent.buildPkg "a", Worker.WEvent.upload "a"] ++
            Worker.WEvent.submitWork "a" false :: []) := by
    decide
  have hv : (Verifier.verifierRun
      [[("s", Verifier.StudioPhase.pending [("w", Verifier.VOutcome.submitErr)])],
       [("s", Verifier.StudioPhase.pending [("w", Verifier.VOutcome.submitOk)])]]).2 =
      [] ++ Verifier.VEvent.submitScores "s" "w" true ::
        ([] ++ Verifier.VEvent.submitScores "s" "w" false :: []) := by
    decide
  refine ⟨⟨hw, hv⟩, ?_, ?_⟩
  · exact (agent_loops_no_double_submission
      [[("a", Worker.WOutcome.submitErr)], [("a", Worker.WOutcome.submitOk)]]
      [[("s", Verifier.StudioPhase.pending [("w", Verifier.VOutcome.submitErr)])],
       [("s", Verifier.StudioPhase.pending [("w", Verifier.VOutcome.submitOk)])]]).1
      "a" _ true _ false [] hw
  · exact (agent_loops_no_double_submission
      [[("a", Worker.WOutcome.submitErr)], [("a", Worker.WOutcome.submitOk)]]
      [[("s", Verifier.StudioPhase.pending [("w", Verifier.VOutcome.submitErr)])],
       [("s", Verifier.StudioPhase.pending [("w", Verifier.VOutcome.submitOk)])]]).2.1
      "s" "w" _ true _ false [] hv

/-- C2: when any pipeline step raises for a studio that is not yet in
`participated`, the studio stays out of `participated`, and on the next
poll tick the whole pipeline for it runs again from the beginning — in
particular, a failure of the on-chain submission after the archival
upload leads to a second archival upload on the retry. -/
theorem worker_failure_reruns_pipeline
    (participated : List String) (studio : String) (o : Worker.WOutcome)
    (hmem : studio ∉ participated) (hfail : o.isFailure = true) :
    (Worker.workerStep participated (studio, o)).1 = participated ∧
    (Worker.workerProcess participated
        [[(studio, o)], [(studio, Worker.WOutcome.submitOk)]].flatten).2 =
      Worker.attemptEvents studio o ++
        Worker.attemptEvents studio Worker.WOutcome.submitOk ∧
    (o = Worker.WOutcome.submitErr →
      List.count (Worker.WEvent.upload studio)
        (Worker.workerProcess participated
          [[(studio, o)], [(studio, Worker.WOutcome.submitOk)]].flatten).2 = 2) := by
  cases o <;> simp only [Worker.WOutcome.isFailure] at hfail <;>
    refine ⟨?_, ?_, ?_⟩ <;>
    simp_all [Worker.workerStep, Worker.workerProcess, Worker.attemptEvents,
      List.count_cons, List.count_append]

theorem worker_failure_reruns_pipeline_witness :
    ("s" ∉ ([] : List String) ∧
      Worker.WOutcome.isFailure Worker.WOutcome.submitErr = true) ∧
    ((Worker.workerStep [] ("s", Worker.WOutcome.submitErr)).1 = [] ∧
      (Worker.workerProcess []
          [[("s", Worker.WOutcome.submitErr)],
           [("s", Worker.WOutcome.submitOk)]].flatten).2 =
        Worker.attemptEvents "s" Worker.WOutcome.submitErr ++
          Worker.attemptEvents "s" Worker.WOutcome.submitOk ∧
      (Worker.WOutcome.submitErr = Worker.WOutcome.submitErr →
        List.count (Worker.WEvent.upload "s")
          (Worker.workerProcess []
            [[("s", Worker.WOutcome.submitErr)],
             [("s", Worker.WOutcome.submitOk)]].flatten).2 = 2)) :=
  ⟨⟨by simp, rfl⟩,
    worker_failure_reruns_pipeline [] "s" Worker.WOutcome.submitErr (by simp) rfl⟩

lemma confidence_range_split {c : ℚ} (hc : ¬(0 ≤ c ∧ c ≤ 1)) : c < 0 ∨ 1 < c := by
  rcases not_and_or.mp hc with h | h
  · exact Or.inl (not_le.mp h)
  · exact Or.inr (not_le.mp h)

/-- C3: `EvidenceBuilder.build` raises `ValueError` exactly when the
question is empty, the outcome index is negative, or the confidence
lies outside [0, 1]; on every valid input it returns a package whose
confidence is the input confidence rounded to 4 decimal places and
whose question, outcome, reasoning and version are the inputs and the
schema version. -/
theorem build_rejects_invalid_and_rounds_confidence
    (q : String) (o : ℤ) (c : ℚ) (srcs : List (List (String × String)))
    (r now : String) :
    ((∃ msg, EvidenceBuilder.build q o c srcs r now = .error msg) ↔
      (q = "" ∨ o < 0 ∨ c < 0 ∨ 1 < c)) ∧
    (∀ pkg, EvidenceBuilder.build q o c srcs r now = .ok pkg →
      pkg.confidence = round4 c ∧ pkg.question = q ∧ pkg.outcome = o ∧
      pkg.reasoning = r ∧ pkg.version = EvidenceBuilder.SCHEMA_VERSION) := by
  by_cases hq : q = ""
  · constructor
    · simp [EvidenceBuilder.build, hq]
    · intro pkg hpkg
      simp [EvidenceBuilder.build, hq] at hpkg
  · by_cases ho : o < 0
    · constructor
      · simp [EvidenceBuilder.build, hq, ho]
      · intro pkg hpkg
        simp [EvidenceBuilder.build, hq, ho] at hpkg
    · by_cases hc : 0 ≤ c ∧ c ≤ 1
      · constructor
        · simp only [EvidenceBuilder.build, if_neg hq, if_neg ho,
            if_neg (not_not_intro hc)]
          constructor
          · rintro ⟨msg, hmsg⟩
            exact absurd hmsg (by simp)
          · rintro (h | h | h | h)
            · exact absurd h hq
            · exact absurd h ho
            · exact absurd h (not_lt.mpr hc.1)
            · exact absurd h (not_lt.mpr hc.2)
        · intro pkg hpkg
          simp only [EvidenceBuilder.build, if_neg hq, if_neg ho,
            if_neg (not_not_intro hc), Except.ok.injEq] at hpkg
          subst hpkg
          exact ⟨rfl, rfl, rfl, rfl, rfl⟩
      · constructor
        · simp only [EvidenceBuilder.build, if_neg hq, if_neg ho, if_pos hc]
          constructor
          · intro _
            exact Or.inr (Or.inr (confidence_range_split hc))
          · intro _
            exact ⟨_, rfl⟩
        · intro pkg hpkg
          simp [EvidenceBuilder.build, hq, ho, hc] at hpkg

theorem build_rejects_invalid_and_rounds_confidence_witness :
    ((∃ msg, EvidenceBuilder.build "" 0 (1/2) [] "r" "t" = .error msg) ↔
      (("" : String) = "" ∨ (0 : ℤ) < 0 ∨ (1/2 : ℚ) < 0 ∨ 1 < (1/2 : ℚ))) ∧
    (∀ pkg, EvidenceBuilder.build "q" 2 (87/100) [] "r" "t" = .ok pkg →
      pkg.confidence = round4 (87/100) ∧ pkg.question = "q" ∧ pkg.outcome = 2 ∧
      pkg.reasoning = "r" ∧ pkg.version = EvidenceBuilder.SCHEMA_VERSION) :=
  ⟨(build_rejects_invalid_and_rounds_confidence "" 0 (1/2) [] "r" "t").1,
   (build_rejects_invalid_and_rounds_confidence "q" 2 (87/100) [] "r" "t").2⟩

/-- C10: for every accepted input, the `sources` of the returned
package has one entry per input source, and each entry carries exactly
the keys `url`, `title`, `snippet`, taking the input's value when the
key is present and `""` otherwise (extra input keys are dropped). -/
theorem build_sources_normalized
    (q : String) (o : ℤ) (c : ℚ) (srcs : List (List (String × String)))
    (r now : String) (pkg : EvidencePackage)
    (h : EvidenceBuilder.build q o c srcs r now = .ok pkg) :
    pkg.sources.length = srcs.length ∧
    ∀ i : Fin srcs.length,
      pkg.sources[(i : ℕ)]? =
        some [("url", dictGetD srcs[i] "url" ""),
              ("title", dictGetD srcs[i] "title" ""),
              ("snippet", dictGetD srcs[i] "snippet" "")] := by
  have hs : pkg.sources = srcs.map EvidenceBuilder.normaliseSource := by
    unfold EvidenceBuilder.build at h
    split_ifs at h
    rw [Except.ok.injEq] at h
    rw [← h]
  constructor
  · rw [hs, List.length_map]
  · intro i
    rw [hs, List.getElem?_map, List.getElem?_eq_getElem i.isLt]
    rfl

theorem build_sources_normalized_witness :
    (EvidenceBuilder.build "q" 0 (1/2) [[("url", "u"), ("extra", "x")], [("title", "t")]]
        "r" "now" =
      .ok { version := EvidenceBuilder.SCHEMA_VERSION, question := "q", outcome := 0,
            confidence := round4 (1/2),
            sources := [[("url", "u"), ("title", ""), ("snippet", "")],
                        [("url", ""), ("title", "t"), ("snippet", "")]],
            reasoning := "r", timestamp := "now" }) ∧
    ({ version := EvidenceBuilder.SCHEMA_VERSION, question := "q", outcome := 0,
       confidence := round4 (1/2),
       sources := [[("url", "u"), ("title", ""), ("snippet", "")],
                   [("url", ""), ("title", "t"), ("snippet", "")]],
       reasoning := "r", timestamp := "now" : EvidencePackage}.sources.length =
        [[("url", "u"), ("extra", "x")], [("title", "t")]].length ∧
      ∀ i : Fin ([[("url", "u"), ("extra", "x")], [("title", "t")]].length),
        ({ version := EvidenceBuilder.SCHEMA_VERSION, question := "q", outcome := 0,
           confidence := round4 (1/2),
           sources := [[("url", "u"), ("title", ""), ("snippet", "")],
                       [("url", ""), ("title", "t"), ("snippet", "")]],
           reasoning := "r", timestamp := "now" : EvidencePackage}).sources[(i : ℕ)]? =
          some [("url", dictGetD [[("url", "u"), ("extra", "x")], [("title", "t")]][i] "url" ""),
                ("title", dictGetD [[("url", "u"), ("extra", "x")], [("title", "t")]][i] "title" ""),
                ("snippet", dictGetD [[("url", "u"), ("extra", "x")], [("title", "t")]][i] "snippet" "")]) := by
  have hbuild : EvidenceBuilder.build "q" 0 (1/2)
      [[("url", "u"), ("extra", "x")], [("title", "t")]] "r" "now" =
      .ok { version := EvidenceBuilder.SCHEMA_VERSION, question := "q", outcome := 0,
            confidence := round4 (1/2),
            sources := [[("url", "u"), ("title", ""), ("snippet", "")],
                        [("url", ""), ("title", "t"), ("snippet", "")]],
            reasoning := "r", timestamp := "now" } := by
    simp [EvidenceBuilder.build, EvidenceBuilder.normaliseSource, dictGetD]
    norm_num
  exact ⟨hbuild,
    build_sources_normalized "q" 0 (1/2)
      [[("url", "u"), ("extra", "x")], [("title", "t")]] "r" "now" _ hbuild⟩

lemma heuristic_audit_length (pkg : EvidencePackage) :
    (Auditor.heuristic_audit pkg).length = 4 := rfl

/-- C7: `Auditor.audit` always returns exactly 4 integers clamped into
[0, 100], whatever the model or the heuristic produced; the
researcher's model-backed analysis returns an outcome index clamped
into [0, options.length - 1] and a confidence clamped into [0, 1]. -/
theorem model_outputs_clamped (hasApiKey : Bool)
    (response : Option (ℤ × ℤ × ℤ × ℤ)) (pkg : EvidencePackage)
    (question : String) (options : List String)
    (rresponse : Option (ℤ × ℚ × String)) (hopts : options ≠ []) :
    (Auditor.audit hasApiKey response pkg).length = 4 ∧
    (∀ s ∈ Auditor.audit hasApiKey response pkg, 0 ≤ s ∧ s ≤ 100) ∧
    (0 ≤ (Researcher.call_openai question options rresponse).1 ∧
      (Researcher.call_openai question options rresponse).1 ≤ (options.length : ℤ) - 1) ∧
    (0 ≤ (Researcher.call_openai question options rresponse).2.1 ∧
      (Researcher.call_openai question options rresponse).2.1 ≤ 1) := by
  have hlenopts : (1 : ℤ) ≤ (options.length : ℤ) := by
    have := List.length_pos.mpr hopts
    omega
  have hlen :
      (if hasApiKey then Auditor.llm_audit response pkg
       else Auditor.heuristic_audit pkg).length = 4 := by
    cases hasApiKey with
    | false => simpa using heuristic_audit_length pkg
    | true =>
      cases response with
      | none => simpa [Auditor.llm_audit] using heuristic_audit_length pkg
      | some t =>
        obtain ⟨a, e, s, r⟩ := t
        simp [Auditor.llm_audit]
  refine ⟨?_, ?_, ?_, ?_⟩
  · simp only [Auditor.audit, List.length_map]
    exact hlen
  · intro s hs
    simp only [Auditor.audit, List.mem_map] at hs
    obtain ⟨t, _, rfl⟩ := hs
    exact ⟨le_max_left 0 _, max_le (by norm_num) (min_le_left _ _)⟩
  · cases rresponse with
    | none =>
      refine ⟨le_refl 0, ?_⟩
      show (0 : ℤ) ≤ (options.length : ℤ) - 1
      omega
    | some t =>
      obtain ⟨o, c, r⟩ := t
      refine ⟨le_max_left 0 _, max_le ?_ (min_le_right _ _)⟩
      omega
  · cases rresponse with
    | none =>
      constructor <;> norm_num [Researcher.call_openai, Researcher.openaiFallback]
    | some t =>
      obtain ⟨o, c, r⟩ := t
      exact ⟨le_max_left 0 _, max_le (by norm_num) (min_le_right _ _)⟩

theorem model_outputs_clamped_witness :
    (["yes", "no"] ≠ ([] : List String)) ∧
    ((Auditor.audit true (some (150, -3, 42, 101)) auditSamplePkg).length = 4 ∧
      (∀ s ∈ Auditor.audit true (some (150, -3, 42, 101)) auditSamplePkg,
        0 ≤ s ∧ s ≤ 100) ∧
      (0 ≤ (Researcher.call_openai "q" ["yes", "no"] (some (7, 5/2, "why"))).1 ∧
        (Researcher.call_openai "q" ["yes", "no"] (some (7, 5/2, "why"))).1 ≤
          ((["yes", "no"] : List String).length : ℤ) - 1) ∧
      (0 ≤ (Researcher.call_openai "q" ["yes", "no"] (some (7, 5/2, "why"))).2.1 ∧
        (Researcher.call_openai "q" ["yes", "no"] (some (7, 5/2, "why"))).2.1 ≤ 1)) :=
  ⟨by simp,
   model_outputs_clamped true (some (150, -3, 42, 101)) auditSamplePkg
     "q" ["yes", "no"] (some (7, 5/2, "why")) (by simp)⟩

/-- C8: the heuristic audit is a pure function of the evidence input:
two packages that agree on sources, reasoning and confidence receive
identical score vectors, with no dependence on any other state. -/
theorem heuristic_audit_deterministic (p1 p2 : EvidencePackage)
    (hs : p1.sources = p2.sources) (hr : p1.reasoning = p2.reasoning)
    (hc : p1.confidence = p2.confidence) :
    Auditor.heuristic_audit p1 = Auditor.heuristic_audit p2 := by
  unfold Auditor.heuristic_audit
  rw [hs, hr, hc]

theorem heuristic_audit_deterministic_witness :
    (heuristicSamplePkg1.sources = heuristicSamplePkg2.sources ∧
      heuristicSamplePkg1.reasoning = heuristicSamplePkg2.reasoning ∧
      heuristicSamplePkg1.confidence = heuristicSamplePkg2.confidence ∧
      heuristicSamplePkg1.question ≠ heuristicSamplePkg2.question) ∧
    Auditor.heuristic_audit heuristicSamplePkg1 =
      Auditor.heuristic_audit heuristicSamplePkg2 :=
  ⟨⟨rfl, rfl, rfl, by decide⟩,
   heuristic_audit_deterministic heuristicSamplePkg1 heuristicSamplePkg2 rfl rfl rfl⟩

/-- C9 counterexample: on a failed model call the researcher does not
return the result of its heuristic variant on the same input — the
fallback carries confidence 0.3 while the heuristic variant returns
confidence 0.5. -/
theorem researcher_fallback_not_heuristic :
    (Researcher.call_openai "Will it rain?" ["yes"] none).2.1 = 3/10 ∧
    (Researcher.llm_analyze false "Will it rain?" ["yes"] [] none).2.1 = 1/2 ∧
    Researcher.call_openai "Will it rain?" ["yes"] none ≠
      Researcher.llm_analyze false "Will it rain?" ["yes"] [] none := by
  refine ⟨rfl, rfl, ?_⟩
  intro h
  have h2 := congrArg (fun t => t.2.1) h
  simp only [Researcher.call_openai, Researcher.openaiFallback,
    Researcher.llm_analyze, Bool.false_eq_true, if_false] at h2
  norm_num at h2

/-- C9 corrected: on any model-path failure neither component
propagates the exception; the auditor returns the heuristic audit of
the same package, while the researcher returns the fixed fallback
analysis (outcome 0, confidence 0.3) rather than its heuristic
variant's result. -/
theorem model_failure_fallback_amended (pkg : EvidencePackage)
    (question : String) (options : List String) :
    Auditor.llm_audit none pkg = Auditor.heuristic_audit pkg ∧
    Researcher.call_openai question options none =
      (0, 3/10, "LLM call failed; fallback to option 0 for " ++ question ++ ".") :=
  ⟨rfl, rfl⟩

lemma filterMap_ite {α β : Type} (l : List α) (p : α → Bool) (g : α → β) :
    l.filterMap (fun a => if p a then some (g a) else none) = (l.filter p).map g := by
  induction l with
  | nil => rfl
  | cons a t ih =>
    by_cases h : p a <;> simp [List.filterMap_cons, List.filter_cons, h, ih]

lemma scoredCheckFrom_ok (lookup : ℕ → Except Unit ℕ) (v : ℕ → ℕ)
    (h : ∀ i, lookup i = .ok (v i)) (l : List ℕ) :
    RegistryReader.scoredCheckFrom lookup l = l.any (fun i => 0 < v i) := by
  induction l with
  | nil => rfl
  | cons i rest ih =>
    rw [RegistryReader.scoredCheckFrom, h i]
    by_cases hv : 0 < v i
    · simp [hv]
    · simp [hv, ih]

lemma any_pos_eq_not_all_zero (v : ℕ → ℕ) (l : List ℕ) :
    (l.any fun i => 0 < v i) = !(l.all fun i => v i == 0) := by
  induction l with
  | nil => rfl
  | cons a t ih =>
    simp only [List.any_cons, List.all_cons, ih, Bool.not_and]
    congr 1
    cases hv : v a <;> simp

/-- C4: `get_unscored_submissions` returns exactly the workers of the
worker list whose submission timestamp is nonzero and whose four score
slots for the verifier are all zero (a nonzero slot counts as already
scored); in particular a registered worker with a zero timestamp never
appears in the result. -/
theorem get_unscored_submissions_characterization
    (reads : RegistryReader.StudioReads) (verifier : String)
    (sval : String → ℕ → ℕ)
    (hOk : ∀ w i, reads.verifierScores verifier w i = .ok (sval w i)) :
    RegistryReader.get_unscored_submissions reads verifier =
      ((reads.workerList.filter (fun w =>
          decide ((reads.submissions w).timestamp ≠ 0) &&
          ((List.range 4).all (fun i => sval w i == 0)))).map
        (fun w => { worker_address := w
                    outcome := (reads.submissions w).outcome
                    evidence_cid := (reads.submissions w).evidence_cid
                    timestamp := (reads.submissions w).timestamp })) ∧
    (∀ w, (reads.submissions w).timestamp = 0 →
      ∀ sub ∈ RegistryReader.get_unscored_submissions reads verifier,
        sub.worker_address ≠ w) := by
  have hrange : List.range 4 = [0, 1, 2, 3] := rfl
  have hscored : ∀ w, RegistryReader.scoredCheck (reads.verifierScores verifier w) =
      !((List.range 4).all fun i => sval w i == 0) := by
    intro w
    rw [RegistryReader.scoredCheck, scoredCheckFrom_ok _ _ (hOk w), hrange]
    exact any_pos_eq_not_all_zero (sval w) [0, 1, 2, 3]
  have hmain : RegistryReader.get_unscored_submissions reads verifier =
      ((reads.workerList.filter (fun w =>
          decide ((reads.submissions w).timestamp ≠ 0) &&
          ((List.range 4).all (fun i => sval w i == 0)))).map
        (fun w => { worker_address := w
                    outcome := (reads.submissions w).outcome
                    evidence_cid := (reads.submissions w).evidence_cid
                    timestamp := (reads.submissions w).timestamp })) := by
    unfold RegistryReader.get_unscored_submissions
    rw [← filterMap_ite]
    congr 1
    funext w
    by_cases hts : (reads.submissions w).timestamp = 0
    · simp [hts]
    · by_cases hall : ((List.range 4).all fun i => sval w i == 0)
      · simp [hts, hscored w, hall]
      · simp [hts, hscored w, hall]
  refine ⟨hmain, ?_⟩
  intro w hts sub hsub
  rw [hmain] at hsub
  simp only [List.mem_map, List.mem_filter] at hsub
  obtain ⟨w2, ⟨_, hp⟩, rfl⟩ := hsub
  intro hww
  simp only at hww
  subst hww
  simp only [Bool.and_eq_true, decide_eq_true_eq] at hp
  exact hp.1 hts

theorem get_unscored_submissions_characterization_witness :
    (∀ w i, sampleReads.verifierScores "v" w i = Except.ok 0) ∧
    RegistryReader.get_unscored_submissions sampleReads "v" =
      [{ worker_address := "w1", outcome := 0, evidence_cid := "cid1",
         timestamp := 5 }] := by
  refine ⟨fun w i => rfl, ?_⟩
  rw [(get_unscored_submissions_characterization sampleReads "v" (fun _ _ => 0)
    (fun w i => rfl)).1]
  decide

lemma find?_map_overwrite (w : String) (agentId : ℕ) :
    ∀ data : List (String × ℕ), data.any (fun kv => kv.1 == w) = true →
      ((data.map (fun kv => if kv.1 == w then (kv.1, agentId) else kv)).find?
        (fun kv => kv.1 == w)).map Prod.snd = some agentId := by
  intro data
  induction data with
  | nil => intro h; simp at h
  | cons kv rest ih =>
    intro h
    cases hbeq : (kv.1 == w) with
    | true =>
      have hmap : (kv :: rest).map
          (fun kv => if kv.1 == w then (kv.1, agentId) else kv) =
          (kv.1, agentId) ::
            rest.map (fun kv => if kv.1 == w then (kv.1, agentId) else kv) := by
        rw [List.map_cons, if_pos hbeq]
      rw [hmap]
      have hfind : List.find? (fun kv => kv.1 == w)
          ((kv.1, agentId) ::
            rest.map (fun kv => if kv.1 == w then (kv.1, agentId) else kv)) =
          some (kv.1, agentId) :=
        List.find?_cons_of_pos _ hbeq
      rw [hfind]
      rfl
    | false =>
      have hrest : rest.any (fun kv => kv.1 == w) = true := by
        simpa [List.any_cons, hbeq] using h
      have hmap : (kv :: rest).map
          (fun kv => if kv.1 == w then (kv.1, agentId) else kv) =
          kv :: rest.map (fun kv => if kv.1 == w then (kv.1, agentId) else kv) := by
        rw [List.map_cons, if_neg (by simp [hbeq])]
      rw [hmap]
      have hfind : List.find? (fun kv => kv.1 == w)
          (kv :: rest.map (fun kv => if kv.1 == w then (kv.1, agentId) else kv)) =
          List.find? (fun kv => kv.1 == w)
            (rest.map (fun kv => if kv.1 == w then (kv.1, agentId) else kv)) :=
        List.find?_cons_of_neg _ (by simp [hbeq])
      rw [hfind]
      exact ih hrest

lemma loadCached_save (env : ChaosOracleSDKClient.RegEnv) (w : String) (agentId : ℕ) :
    ChaosOracleSDKClient.loadCachedAgentId
      (ChaosOracleSDKClient.saveCachedAgentId env w agentId) w = some agentId := by
  have hfind : ((ChaosOracleSDKClient.setKey (env.cacheFile.getD []) w agentId).find?
      (fun kv => kv.1 == w)).map Prod.snd = some agentId := by
    unfold ChaosOracleSDKClient.setKey
    by_cases h : (env.cacheFile.getD []).any (fun kv => kv.1 == w)
    · rw [if_pos h]
      exact find?_map_overwrite w agentId _ h
    · rw [if_neg h]
      have hnone : (env.cacheFile.getD []).find? (fun kv => kv.1 == w) = none :=
        List.find?_eq_none.mpr (fun x hx hxw => h (List.any_eq_true.mpr ⟨x, hx, hxw⟩))
      rw [List.find?_append, hnone]
      simp
  unfold ChaosOracleSDKClient.loadCachedAgentId ChaosOracleSDKClient.saveCachedAgentId
  cases hf : (ChaosOracleSDKClient.setKey (env.cacheFile.getD []) w agentId).find?
      (fun kv => kv.1 == w) with
  | none =>
    rw [hf] at hfind
    exact absurd hfind (by simp)
  | some kv2 =>
    rw [hf] at hfind
    simp only [Option.map_some', Option.some.injEq] at hfind
    simp [hf, hfind]

lemma auto_register_cache_hit {env : ChaosOracleSDKClient.RegEnv} {wallet : String}
    {cachedId : ℕ}
    (h : ChaosOracleSDKClient.loadCachedAgentId env wallet = some cachedId) :
    ChaosOracleSDKClient.auto_register env wallet = (cachedId, env, 0) := by
  simp [ChaosOracleSDKClient.auto_register, h]

lemma auto_register_caches (env : ChaosOracleSDKClient.RegEnv) (wallet : String) :
    ChaosOracleSDKClient.loadCachedAgentId
      (ChaosOracleSDKClient.auto_register env wallet).2.1 wallet =
      some ((ChaosOracleSDKClient.auto_register env wallet).1) := by
  cases hl : ChaosOracleSDKClient.loadCachedAgentId env wallet with
  | some cachedId =>
    have h1 : ChaosOracleSDKClient.auto_register env wallet = (cachedId, env, 0) := by
      simp [ChaosOracleSDKClient.auto_register, hl]
    rw [h1]
    exact hl
  | none =>
    by_cases hc : env.chainId wallet = 0
    · have h1 : (ChaosOracleSDKClient.auto_register env wallet).2.1 =
          { ChaosOracleSDKClient.saveCachedAgentId env wallet env.freshId with
            chainId := fun w => if w == wallet then env.freshId else env.chainId w } := by
        simp [ChaosOracleSDKClient.auto_register, hl, hc]
      have h2 : (ChaosOracleSDKClient.auto_register env wallet).1 = env.freshId := by
        simp [ChaosOracleSDKClient.auto_register, hl, hc]
      rw [h1, h2]
      exact loadCached_save env wallet env.freshId
    · have h1 : (ChaosOracleSDKClient.auto_register env wallet).2.1 =
          ChaosOracleSDKClient.saveCachedAgentId env wallet (env.chainId wallet) := by
        simp [ChaosOracleSDKClient.auto_register, hl, hc]
      have h2 : (ChaosOracleSDKClient.auto_register env wallet).1 =
          env.chainId wallet := by
        simp [ChaosOracleSDKClient.auto_register, hl, hc]
      rw [h1, h2]
      exact loadCached_save env wallet (env.chainId wallet)

/-- C5: identity registration is idempotent: a cache hit returns the
cached id with no transaction and no state change; a chain hit returns
the on-chain id with no transaction; a registration transaction is
issued only when both the cache and the chain miss; after any call, a
second call for the same wallet issues no transaction and returns the
same id; and the local backend's `auto_register` is a transaction-free
no-op. -/
theorem auto_register_idempotent :
    (∀ env wallet cachedId,
      ChaosOracleSDKClient.loadCachedAgentId env wallet = some cachedId →
      ChaosOracleSDKClient.auto_register env wallet = (cachedId, env, 0)) ∧
    (∀ env wallet,
      ChaosOracleSDKClient.loadCachedAgentId env wallet = none →
      env.chainId wallet ≠ 0 →
      (ChaosOracleSDKClient.auto_register env wallet).1 = env.chainId wallet ∧
      (ChaosOracleSDKClient.auto_register env wallet).2.2 = 0) ∧
    (∀ env wallet,
      (ChaosOracleSDKClient.auto_register env wallet).2.2 ≠ 0 →
      ChaosOracleSDKClient.loadCachedAgentId env wallet = none ∧
      env.chainId wallet = 0) ∧
    (∀ env wallet,
      (ChaosOracleSDKClient.auto_register
          (ChaosOracleSDKClient.auto_register env wallet).2.1 wallet).2.2 = 0 ∧
      (ChaosOracleSDKClient.auto_register
          (ChaosOracleSDKClient.auto_register env wallet).2.1 wallet).1 =
        (ChaosOracleSDKClient.auto_register env wallet).1) ∧
    DirectSubmitter.auto_register = (0, 0) := by
  refine ⟨?_, ?_, ?_, ?_, rfl⟩
  · intro env wallet cachedId h
    simp [ChaosOracleSDKClient.auto_register, h]
  · intro env wallet h hc
    simp [ChaosOracleSDKClient.auto_register, h, hc]
  · intro env wallet h
    cases hl : ChaosOracleSDKClient.loadCachedAgentId env wallet with
    | some cachedId => simp [ChaosOracleSDKClient.auto_register, hl] at h
    | none =>
      by_cases hc : env.chainId wallet = 0
      · exact ⟨rfl, hc⟩
      · simp [ChaosOracleSDKClient.auto_register, hl, hc] at h
  · intro env wallet
    have hsecond := auto_register_cache_hit (auto_register_caches env wallet)
    rw [hsecond]
    exact ⟨rfl, rfl⟩

theorem auto_register_idempotent_witness :
    ChaosOracleSDKClient.loadCachedAgentId sampleRegEnv "w" = some 7 ∧
    ChaosOracleSDKClient.auto_register sampleRegEnv "w" = (7, sampleRegEnv, 0) :=
  ⟨rfl, (auto_register_idempotent).1 sampleRegEnv "w" 7 rfl⟩

/-- C6 counterexample: `get_studio_details` does not follow the split
failure policy — a logical (non-connectivity) failure of its first read
propagates to the caller instead of degrading to an empty result. -/
theorem get_studio_details_propagates_decode_error :
    PyErr.other.isConnectivity = false ∧
    RegistryReader.get_studio_details "studio" (.error .other) (.ok 0)
      (fun _ => .ok "") (.ok 0) (.ok 0) (.ok false) = .error PyErr.other :=
  ⟨rfl, rfl⟩

/-- C6 corrected: `get_active_studios` re-raises connectivity errors
and degrades every other exception to an empty list, but
`get_studio_details` has no handler and propagates every failure,
logical ones included. -/
theorem read_failure_policy_amended :
    (∀ studios, RegistryReader.get_active_studios (.ok studios) = .ok studios) ∧
    (∀ e, e.isConnectivity = true →
      RegistryReader.get_active_studios (.error e) = .error e) ∧
    (∀ e, e.isConnectivity = false →
      RegistryReader.get_active_studios (.error e) = .ok []) ∧
    (∀ address e optionCountCall optionCall workerCountCall verifierCountCall
        epochClosedCall,
      RegistryReader.get_studio_details address (.error e) optionCountCall
        optionCall workerCountCall verifierCountCall epochClosedCall = .error e) ∧
    (∀ address q e optionCall workerCountCall verifierCountCall epochClosedCall,
      RegistryReader.get_studio_details address (.ok q) (.error e) optionCall
        workerCountCall verifierCountCall epochClosedCall = .error e) := by
  refine ⟨fun studios => rfl, ?_, ?_, fun a e cnt opt wc vc ec => rfl,
    fun a q e opt wc vc ec => rfl⟩
  · intro e he
    simp [RegistryReader.get_active_studios, he]
  · intro e he
    simp [RegistryReader.get_active_studios, he]

theorem read_failure_policy_amended_witness :
    (PyErr.timeoutError.isConnectivity = true ∧
      RegistryReader.get_active_studios (.error PyErr.timeoutError) =
        .error PyErr.timeoutError) ∧
    (PyErr.other.isConnectivity = false ∧
      RegistryReader.get_active_studios (.error PyErr.other) = .ok []) :=
  ⟨⟨rfl, read_failure_policy_amended.2.1 PyErr.timeoutError rfl⟩,
   ⟨rfl, read_failure_policy_amended.2.2.1 PyErr.other rfl⟩⟩

